import Mathlib

/-!
Shallow embedding of the physics core of `src/main.py` (Customizable Gravity
Simulation): 2D vector math, the pairwise gravitational force
(`Body.calculate_force`), the frozen-acceleration RK4 integrator
(`runge_kutta_4`), the per-frame sequential body sweep (`update_bodies`,
from the loop `for body in bodies: body.update(bodies, barycenter)`), and
the barycenter (`compute_barycenter`).

The vector library `pg_extensions` (`Vector2`, `runge_kutta_4`,
`Vector2.random_polar`) is imported by `src/main.py` but is not part of
`src/`; those definitions are modelled from the spec and carry a doc comment
starting with `Modelled from the spec:`.  Python floating-point arithmetic is
modelled by real arithmetic.  The random draws inside
`Vector2.random_polar` are externalized as explicit arguments (the sampled
angle and the sampled magnitude).  Python's `ZeroDivisionError` (raised by
`self.total_force / self.mass` when `mass == 0`) is modelled by `Option`:
`none` is a raised arithmetic fault.  Rendering calls (`Body.render`,
`update_ui`, grid drawing) have no effect on physics state and are omitted.
-/

namespace GravSim

open scoped Classical

/-- Modelled from the spec: the 2D real vector type of the missing
`pg_extensions` library (spec §2: "2D vector with add/sub/scale, magnitude,
normalize, random-polar construction"). -/
@[ext]
structure Vector2 where
  x : ℝ
  y : ℝ

namespace Vector2

instance : Add Vector2 := ⟨fun a b => ⟨a.x + b.x, a.y + b.y⟩⟩

instance : Sub Vector2 := ⟨fun a b => ⟨a.x - b.x, a.y - b.y⟩⟩

instance : Neg Vector2 := ⟨fun a => ⟨-a.x, -a.y⟩⟩

instance : HMul Vector2 ℝ Vector2 := ⟨fun v s => ⟨v.x * s, v.y * s⟩⟩

noncomputable instance : HDiv Vector2 ℝ Vector2 := ⟨fun v s => ⟨v.x / s, v.y / s⟩⟩

@[simp] theorem add_x (a b : Vector2) : (a + b).x = a.x + b.x := rfl

@[simp] theorem add_y (a b : Vector2) : (a + b).y = a.y + b.y := rfl

@[simp] theorem sub_x (a b : Vector2) : (a - b).x = a.x - b.x := rfl

@[simp] theorem sub_y (a b : Vector2) : (a - b).y = a.y - b.y := rfl

@[simp] theorem neg_x (a : Vector2) : (-a).x = -a.x := rfl

@[simp] theorem neg_y (a : Vector2) : (-a).y = -a.y := rfl

@[simp] theorem smul_x (v : Vector2) (s : ℝ) : (v * s).x = v.x * s := rfl

@[simp] theorem smul_y (v : Vector2) (s : ℝ) : (v * s).y = v.y * s := rfl

@[simp] theorem sdiv_x (v : Vector2) (s : ℝ) : (v / s).x = v.x / s := rfl

@[simp] theorem sdiv_y (v : Vector2) (s : ℝ) : (v / s).y = v.y / s := rfl

/-- Modelled from the spec: `Vector2.magnitude`, the Euclidean length
`sqrt(x² + y²)`, from the missing `pg_extensions` library. -/
noncomputable def magnitude (v : Vector2) : ℝ :=
  Real.sqrt (v.x ^ 2 + v.y ^ 2)

/-- Modelled from the spec: `Vector2.sqr_magnitude`, the squared length
`x² + y²`, used by `Body.calculate_force` as `|delta|²`. -/
def sqr_magnitude (v : Vector2) : ℝ :=
  v.x ^ 2 + v.y ^ 2

/-- Modelled from the spec: `Vector2.normalize`, the vector scaled by the
inverse of its magnitude (spec §4.1: "direction = delta normalized"); the
source only calls it on vectors of nonzero magnitude. -/
noncomputable def normalize (v : Vector2) : Vector2 :=
  v / v.magnitude

/-- Modelled from the spec: `Vector2.random_polar(min_angle, max_angle,
min_mag, max_mag)` from the missing `pg_extensions` library (spec §4.1:
"a vector of random direction (uniformly sampled angle in [0, 2π)) and
random magnitude in [50, 200)").  The two random draws are externalized:
`θ` is the sampled angle and `r` the sampled magnitude; the intended
contract is `θ ∈ [θmin, θmax)` and `r ∈ [rmin, rmax)`. -/
noncomputable def random_polar (θmin θmax rmin rmax θ r : ℝ) : Vector2 :=
  ⟨r * Real.cos θ, r * Real.sin θ⟩

theorem magnitude_nonneg (v : Vector2) : 0 ≤ v.magnitude :=
  Real.sqrt_nonneg _

theorem sq_magnitude_eq (v : Vector2) : v.magnitude ^ 2 = v.sqr_magnitude :=
  Real.sq_sqrt (by positivity)

theorem magnitude_eq_zero_iff (v : Vector2) :
    v.magnitude = 0 ↔ v = ⟨0, 0⟩ := by
  unfold magnitude
  rw [Real.sqrt_eq_zero (by positivity)]
  constructor
  · intro h
    have hx : v.x = 0 := by nlinarith [sq_nonneg v.x, sq_nonneg v.y]
    have hy : v.y = 0 := by nlinarith [sq_nonneg v.x, sq_nonneg v.y]
    exact Vector2.ext hx hy
  · intro h
    rw [h]
    norm_num

theorem sub_eq_zero_iff (a b : Vector2) : a - b = ⟨0, 0⟩ ↔ a = b := by
  constructor
  · intro h
    have hx := congrArg Vector2.x h
    have hy := congrArg Vector2.y h
    simp only [sub_x, sub_y] at hx hy
    exact Vector2.ext (by linarith) (by linarith)
  · intro h
    rw [h]
    exact Vector2.ext (by simp) (by simp)

end Vector2

/-- Modelled from the spec: `runge_kutta_4(position, velocity, acceleration,
dt)` from the missing `pg_extensions` library, per spec §4.2: the
acceleration is frozen across the four stages; each stage yields a
(velocity-contribution, acceleration-contribution) pair scaled by `dt`, the
velocity used by stages 2 and 3 is offset by half the previous stage's
acceleration contribution and by the full one at stage 4, and the result is
the classical (1,2,2,1)/6 combination. -/
noncomputable def runge_kutta_4 (position velocity acceleration : Vector2) (dt : ℝ) :
    Vector2 × Vector2 :=
  let k1_v := velocity * dt
  let k1_a := acceleration * dt
  let k2_v := (velocity + k1_a * (1 / 2 : ℝ)) * dt
  let k2_a := acceleration * dt
  let k3_v := (velocity + k2_a * (1 / 2 : ℝ)) * dt
  let k3_a := acceleration * dt
  let k4_v := (velocity + k3_a) * dt
  let k4_a := acceleration * dt
  (position + (k1_v + k2_v * (2 : ℝ) + k3_v * (2 : ℝ) + k4_v) * (1 / 6 : ℝ),
   velocity + (k1_a + k2_a * (2 : ℝ) + k3_a * (2 : ℝ) + k4_a) * (1 / 6 : ℝ))

/-- The physics state of a body (`Body.__init__` in `src/main.py`): position,
velocity, mass and the accumulated `total_force` (initialized to the zero
vector).  The display-only attributes `name`, `radius`, `color` and `width`
are opaque to the core (spec §3) and omitted; the `acceleration` attribute is
a per-step derived value and kept local to `Body.update`. -/
@[ext]
structure Body where
  position : Vector2
  velocity : Vector2
  mass : ℝ
  total_force : Vector2

instance : Inhabited Body :=
  ⟨⟨⟨0, 0⟩, ⟨0, 0⟩, 1, ⟨0, 0⟩⟩⟩

/-- Embeds `Body.calculate_force` (`src/main.py` lines 41-48): the
inverse-square force when the two positions differ, else the random polar
perturbation `Vector2.random_polar(0, math.tau, 50, 200)`.  The random draws
are passed in as `draw`. -/
noncomputable def Body.calculate_force (G : ℝ) (self other : Body) (draw : ℝ × ℝ) :
    Vector2 :=
  let delta := other.position - self.position
  if delta.magnitude ≠ 0 then
    let dir := delta.normalize
    let force := G * self.mass * other.mass / delta.sqr_magnitude
    dir * force
  else
    Vector2.random_polar 0 (2 * Real.pi) 50 200 draw.1 draw.2

/-- Embeds the force-accumulation loop of `Body.update` (`src/main.py`
lines 53-58): `total_force` is reset to the zero vector and the forces from
every other body in the current list are summed; the entry at index `i`
(the body itself, excluded by reference identity in Python) is skipped.
`draws` supplies the random draw used against the body at index `j` when
that pair is coincident. -/
noncomputable def Body.total_force_on (G : ℝ) (i : ℕ) (self : Body)
    (bodies : List Body) (draws : ℕ → ℝ × ℝ) : Vector2 :=
  (List.range bodies.length).foldl
    (fun acc j =>
      if j = i then acc
      else acc + Body.calculate_force G self (bodies.getD j default) (draws j))
    ⟨0, 0⟩

/-- Embeds `Body.update` (`src/main.py` lines 50-63): when not paused,
accumulate the total force, derive `acceleration = total_force / mass`, and
advance position and velocity with `runge_kutta_4`.  Python raises
`ZeroDivisionError` at the division when `mass == 0`; this is modelled by
`none`.  The trailing `self.render(barycenter)` call only draws and is
omitted. -/
noncomputable def Body.update (G : ℝ) (paused : Bool) (dt : ℝ) (i : ℕ)
    (bodies : List Body) (self : Body) (draws : ℕ → ℝ × ℝ) : Option Body :=
  if paused then some self
  else
    let tf := Body.total_force_on G i self bodies draws
    if self.mass = 0 then none
    else
      let acceleration := tf / self.mass
      let pv := runge_kutta_4 self.position self.velocity acceleration dt
      some { self with position := pv.1, velocity := pv.2, total_force := tf }

/-- Embeds the per-frame sweep `for body in bodies: body.update(bodies,
barycenter)` (`src/main.py` lines 388-390).  The list is mutated in place in
Python, so the body at index `i` is updated against the current list in
which all bodies of smaller index have already been updated this frame:
`pre` is the already-updated prefix and the recursion walks the remaining
suffix.  `rng i` supplies the random draws used while updating the body at
index `i`. -/
noncomputable def update_bodies_aux (G : ℝ) (paused : Bool) (dt : ℝ)
    (rng : ℕ → ℕ → ℝ × ℝ) : List Body → List Body → Option (List Body)
  | pre, [] => some pre
  | pre, b :: rest =>
    match Body.update G paused dt pre.length (pre ++ b :: rest) b (rng pre.length) with
    | none => none
    | some b' => update_bodies_aux G paused dt rng (pre ++ [b']) rest

/-- The whole-collection per-frame update of `src/main.py` lines 388-390. -/
noncomputable def update_bodies (G : ℝ) (paused : Bool) (dt : ℝ)
    (rng : ℕ → ℕ → ℝ × ℝ) (bodies : List Body) : Option (List Body) :=
  update_bodies_aux G paused dt rng [] bodies

/-- Follows the spec's words (§4.3), for comparison with `update_bodies`:
a snapshot-based step that computes every body's force from start-of-step
positions before mutating any position — each body is updated against the
original list. -/
noncomputable def step_snapshot (G : ℝ) (paused : Bool) (dt : ℝ)
    (rng : ℕ → ℕ → ℝ × ℝ) (bodies : List Body) : Option (List Body) :=
  (List.range bodies.length).mapM
    (fun i => Body.update G paused dt i bodies (bodies.getD i default) (rng i))

/-- Embeds `total_mass = sum(body.mass for body in bodies)`
(`src/main.py` line 112). -/
def total_mass (bodies : List Body) : ℝ :=
  bodies.foldl (fun acc b => acc + b.mass) 0

/-- Embeds `sum((body.position * body.mass for body in bodies), Vector2())`
(`src/main.py` line 117). -/
def weighted_position_sum (bodies : List Body) : Vector2 :=
  bodies.foldl (fun acc b => acc + b.position * b.mass) ⟨0, 0⟩

/-- Embeds `compute_barycenter` (`src/main.py` lines 111-118): the origin
when the total mass is zero, else the mass-weighted position sum divided by
the total mass. -/
noncomputable def compute_barycenter (bodies : List Body) : Vector2 :=
  let tm := total_mass bodies
  if tm = 0 then ⟨0, 0⟩
  else weighted_position_sum bodies / tm

/-! Helper lemmas shared by several results. -/

/-- Closed form of the frozen-acceleration RK4 step: the stage structure of
spec §4.2 collapses to `p + v·dt + a·dt²/2` and `v + a·dt`. -/
theorem rk4_eval (p v a : Vector2) (dt : ℝ) :
    runge_kutta_4 p v a dt =
      (⟨p.x + v.x * dt + a.x * dt ^ 2 / 2, p.y + v.y * dt + a.y * dt ^ 2 / 2⟩,
       ⟨v.x + a.x * dt, v.y + a.y * dt⟩) := by
  simp only [runge_kutta_4, Prod.mk.injEq]
  constructor <;> (apply Vector2.ext <;> simp <;> ring)

/-- A nonzero difference of positions has nonzero magnitude. -/
theorem magnitude_sub_ne_zero {p q : Vector2} (h : p ≠ q) :
    (p - q).magnitude ≠ 0 := by
  rw [Ne, Vector2.magnitude_eq_zero_iff, Vector2.sub_eq_zero_iff]
  exact h

/-- C9: with the zero acceleration vector, the RK4 integrator returns
`position + velocity*dt` and leaves the velocity unchanged, exactly, for
every position, velocity and dt. -/
theorem runge_kutta_4_zero_accel (position velocity : Vector2) (dt : ℝ) :
    runge_kutta_4 position velocity ⟨0, 0⟩ dt =
      (position + velocity * dt, velocity) := by
  rw [rk4_eval]
  simp only [Prod.mk.injEq]
  constructor <;> (apply Vector2.ext <;> simp)

/-- C1: for non-coincident positions, `calculate_force` returns the
normalization of `other.position - self.position` scaled by
`G * self.mass * other.mass / |delta|²` (the inverse-square law, pointing
from self toward other). -/
theorem calculate_force_inverse_square (G : ℝ) (self other : Body)
    (draw : ℝ × ℝ) (h : self.position ≠ other.position) :
    Body.calculate_force G self other draw =
      (other.position - self.position).normalize *
        (G * self.mass * other.mass /
          (other.position - self.position).magnitude ^ 2) := by
  have hδ : (other.position - self.position).magnitude ≠ 0 :=
    magnitude_sub_ne_zero fun hh => h hh.symm
  simp only [Body.calculate_force]
  rw [if_pos hδ, Vector2.sq_magnitude_eq]

/-- C1 witness: the inverse-square formula at two concrete bodies of mass 1
at positions (0,0) and (3,4) with G = 1. -/
theorem calculate_force_inverse_square_witness :
    Body.calculate_force 1 ⟨⟨0, 0⟩, ⟨0, 0⟩, 1, ⟨0, 0⟩⟩
        ⟨⟨3, 4⟩, ⟨0, 0⟩, 1, ⟨0, 0⟩⟩ (0, 0) =
      ((⟨⟨3, 4⟩, ⟨0, 0⟩, 1, ⟨0, 0⟩⟩ : Body).position -
          (⟨⟨0, 0⟩, ⟨0, 0⟩, 1, ⟨0, 0⟩⟩ : Body).position).normalize *
        (1 * (⟨⟨0, 0⟩, ⟨0, 0⟩, 1, ⟨0, 0⟩⟩ : Body).mass *
            (⟨⟨3, 4⟩, ⟨0, 0⟩, 1, ⟨0, 0⟩⟩ : Body).mass /
          ((⟨⟨3, 4⟩, ⟨0, 0⟩, 1, ⟨0, 0⟩⟩ : Body).position -
              (⟨⟨0, 0⟩, ⟨0, 0⟩, 1, ⟨0, 0⟩⟩ : Body).position).magnitude ^ 2) :=
  calculate_force_inverse_square 1 _ _ (0, 0)
    (by intro h; have := congrArg Vector2.x h; norm_num at this)

/-- C4: for bodies at non-coincident positions the two pairwise forces are
equal in magnitude and opposite in direction. -/
theorem calculate_force_antisymm (G : ℝ) (A B : Body) (d1 d2 : ℝ × ℝ)
    (h : A.position ≠ B.position) :
    Body.calculate_force G A B d1 = - Body.calculate_force G B A d2 := by
  have hδ1 : (B.position - A.position).magnitude ≠ 0 :=
    magnitude_sub_ne_zero fun hh => h hh.symm
  have hδ2 : (A.position - B.position).magnitude ≠ 0 :=
    magnitude_sub_ne_zero h
  have hm : (A.position - B.position).magnitude =
      (B.position - A.position).magnitude := by
    unfold Vector2.magnitude
    congr 1
    simp only [Vector2.sub_x, Vector2.sub_y]
    ring
  have hs : (A.position - B.position).sqr_magnitude =
      (B.position - A.position).sqr_magnitude := by
    unfold Vector2.sqr_magnitude
    simp only [Vector2.sub_x, Vector2.sub_y]
    ring
  simp only [Body.calculate_force]
  rw [if_pos hδ1, if_pos hδ2]
  apply Vector2.ext <;>
    simp only [Vector2.normalize, Vector2.smul_x, Vector2.smul_y,
      Vector2.sdiv_x, Vector2.sdiv_y, Vector2.neg_x, Vector2.neg_y,
      Vector2.sub_x, Vector2.sub_y, hm, hs] <;>
    ring

/-- C4 witness: antisymmetry at two concrete bodies of mass 1 at positions
(0,0) and (3,4) with G = 1. -/
theorem calculate_force_antisymm_witness :
    Body.calculate_force 1 ⟨⟨0, 0⟩, ⟨0, 0⟩, 1, ⟨0, 0⟩⟩
        ⟨⟨3, 4⟩, ⟨0, 0⟩, 1, ⟨0, 0⟩⟩ (0, 0) =
      - Body.calculate_force 1 ⟨⟨3, 4⟩, ⟨0, 0⟩, 1, ⟨0, 0⟩⟩
          ⟨⟨0, 0⟩, ⟨0, 0⟩, 1, ⟨0, 0⟩⟩ (0, 0) :=
  calculate_force_antisymm 1 _ _ (0, 0) (0, 0)
    (by intro h; have := congrArg Vector2.x h; norm_num at this)

/-- C5 counterexample: with G = 0 and two bodies at exactly the same
position, `calculate_force` returns the random polar perturbation — at the
draw (angle 0, magnitude 50) it is (50, 0), not the zero vector. -/
theorem calculate_force_zero_G_coincident_ne_zero :
    Body.calculate_force 0 ⟨⟨0, 0⟩, ⟨0, 0⟩, 1, ⟨0, 0⟩⟩
        ⟨⟨0, 0⟩, ⟨1, 0⟩, 1, ⟨0, 0⟩⟩ (0, 50) ≠ ⟨0, 0⟩ := by
  have h0 : ((⟨⟨0, 0⟩, ⟨1, 0⟩, 1, ⟨0, 0⟩⟩ : Body).position -
      (⟨⟨0, 0⟩, ⟨0, 0⟩, 1, ⟨0, 0⟩⟩ : Body).position).magnitude = 0 := by
    simp only [Vector2.magnitude, Vector2.sub_x, Vector2.sub_y]
    norm_num
  simp only [Body.calculate_force]
  rw [if_neg fun hc => hc h0]
  simp only [Vector2.random_polar]
  intro h
  have hx := congrArg Vector2.x h
  simp only [Real.cos_zero] at hx
  norm_num at hx

/-- C5 amended: with G = 0, the pairwise force between bodies at distinct
positions is the zero vector (for coincident positions the random
perturbation branch is taken instead, independently of G). -/
theorem calculate_force_zero_G (self other : Body) (draw : ℝ × ℝ)
    (h : self.position ≠ other.position) :
    Body.calculate_force 0 self other draw = ⟨0, 0⟩ := by
  have hδ : (other.position - self.position).magnitude ≠ 0 :=
    magnitude_sub_ne_zero fun hh => h hh.symm
  simp only [Body.calculate_force]
  rw [if_pos hδ]
  apply Vector2.ext <;>
    simp [Vector2.normalize]

/-- C5 witness: the zero-G force vanishes at two concrete bodies at
positions (0,0) and (1,0). -/
theorem calculate_force_zero_G_witness :
    Body.calculate_force 0 ⟨⟨0, 0⟩, ⟨0, 0⟩, 1, ⟨0, 0⟩⟩
        ⟨⟨1, 0⟩, ⟨0, 0⟩, 1, ⟨0, 0⟩⟩ (0, 0) = ⟨0, 0⟩ :=
  calculate_force_zero_G _ _ (0, 0)
    (by intro h; have := congrArg Vector2.x h; norm_num at this)

/-- C6: for two bodies at exactly the same position, `calculate_force` is
the random polar vector of the sampled angle and magnitude; for any sampled
magnitude in [50, 200) the result has that magnitude — hence it lies in
[50, 200) — and the result is not the zero vector. -/
theorem calculate_force_coincident_spec (G : ℝ) (self other : Body)
    (θ r : ℝ) (hpos : self.position = other.position) (h50 : 50 ≤ r)
    (h200 : r < 200) :
    Body.calculate_force G self other (θ, r) =
        Vector2.random_polar 0 (2 * Real.pi) 50 200 θ r ∧
      (Body.calculate_force G self other (θ, r)).magnitude = r ∧
      50 ≤ (Body.calculate_force G self other (θ, r)).magnitude ∧
      (Body.calculate_force G self other (θ, r)).magnitude < 200 ∧
      Body.calculate_force G self other (θ, r) ≠ ⟨0, 0⟩ := by
  have h0 : (other.position - self.position).magnitude = 0 := by
    rw [Vector2.magnitude_eq_zero_iff, Vector2.sub_eq_zero_iff]
    exact hpos.symm
  have hforce : Body.calculate_force G self other (θ, r) =
      Vector2.random_polar 0 (2 * Real.pi) 50 200 θ r := by
    simp only [Body.calculate_force]
    rw [if_neg fun hc => hc h0]
  have hmag : (Vector2.random_polar 0 (2 * Real.pi) 50 200 θ r).magnitude = r := by
    simp only [Vector2.random_polar, Vector2.magnitude]
    have hsq : (r * Real.cos θ) ^ 2 + (r * Real.sin θ) ^ 2 =
        r ^ 2 * (Real.sin θ ^ 2 + Real.cos θ ^ 2) := by ring
    rw [hsq, Real.sin_sq_add_cos_sq, mul_one, Real.sqrt_sq (by linarith)]
  have hmagF : (Body.calculate_force G self other (θ, r)).magnitude = r := by
    rw [hforce, hmag]
  refine ⟨hforce, hmagF, by rw [hmagF]; exact h50, by rw [hmagF]; exact h200, ?_⟩
  intro hz
  rw [hz] at hmagF
  simp only [Vector2.magnitude] at hmagF
  norm_num at hmagF
  linarith

/-- C6 witness: the coincident-pair fallback at two concrete bodies at the
same position, with sampled angle 0 and sampled magnitude 50. -/
theorem calculate_force_coincident_spec_witness :
    Body.calculate_force 1 ⟨⟨2, 3⟩, ⟨0, 0⟩, 1, ⟨0, 0⟩⟩
        ⟨⟨2, 3⟩, ⟨1, 0⟩, 5, ⟨0, 0⟩⟩ (0, 50) =
        Vector2.random_polar 0 (2 * Real.pi) 50 200 0 50 ∧
      (Body.calculate_force 1 ⟨⟨2, 3⟩, ⟨0, 0⟩, 1, ⟨0, 0⟩⟩
          ⟨⟨2, 3⟩, ⟨1, 0⟩, 5, ⟨0, 0⟩⟩ (0, 50)).magnitude = 50 ∧
      50 ≤ (Body.calculate_force 1 ⟨⟨2, 3⟩, ⟨0, 0⟩, 1, ⟨0, 0⟩⟩
          ⟨⟨2, 3⟩, ⟨1, 0⟩, 5, ⟨0, 0⟩⟩ (0, 50)).magnitude ∧
      (Body.calculate_force 1 ⟨⟨2, 3⟩, ⟨0, 0⟩, 1, ⟨0, 0⟩⟩
          ⟨⟨2, 3⟩, ⟨1, 0⟩, 5, ⟨0, 0⟩⟩ (0, 50)).magnitude < 200 ∧
      Body.calculate_force 1 ⟨⟨2, 3⟩, ⟨0, 0⟩, 1, ⟨0, 0⟩⟩
          ⟨⟨2, 3⟩, ⟨1, 0⟩, 5, ⟨0, 0⟩⟩ (0, 50) ≠ ⟨0, 0⟩ :=
  calculate_force_coincident_spec 1 _ _ 0 50 rfl (by norm_num) (by norm_num)

/-- C3: the barycenter is the origin when the total mass is zero (the
function is total, so the empty and all-zero-mass collections return rather
than fault), otherwise the mass-weighted position sum divided by the total
mass; and for two bodies of equal nonzero mass it is the midpoint of their
positions. -/
theorem compute_barycenter_spec (bodies : List Body) (b1 b2 : Body)
    (hm : b1.mass = b2.mass) (h0 : b1.mass ≠ 0) :
    (total_mass bodies = 0 → compute_barycenter bodies = ⟨0, 0⟩) ∧
      (total_mass bodies ≠ 0 →
        compute_barycenter bodies =
          weighted_position_sum bodies / total_mass bodies) ∧
      compute_barycenter [b1, b2] =
        (b1.position + b2.position) * ((1 : ℝ) / 2) := by
  refine ⟨fun h => by simp only [compute_barycenter]; rw [if_pos h],
          fun h => by simp only [compute_barycenter]; rw [if_neg h], ?_⟩
  have htm : total_mass [b1, b2] = 2 * b1.mass := by
    simp only [total_mass, List.foldl]
    rw [← hm]
    ring
  have htm0 : total_mass [b1, b2] ≠ 0 := by
    rw [htm]
    exact mul_ne_zero two_ne_zero h0
  simp only [compute_barycenter]
  rw [if_neg htm0, htm]
  simp only [weighted_position_sum, List.foldl]
  apply Vector2.ext <;>
    (simp only [Vector2.sdiv_x, Vector2.sdiv_y, Vector2.add_x, Vector2.add_y,
      Vector2.smul_x, Vector2.smul_y, ← hm]
     field_simp
     ring)

/-- C3 witness: the empty collection yields the origin, and two unit masses
at (0,0) and (4,2) yield the midpoint (2,1), via the general theorem. -/
theorem compute_barycenter_spec_witness :
    (total_mass [] = 0 → compute_barycenter [] = ⟨0, 0⟩) ∧
      (total_mass [] ≠ 0 →
        compute_barycenter [] =
          weighted_position_sum [] / total_mass []) ∧
      compute_barycenter
          [⟨⟨0, 0⟩, ⟨0, 0⟩, 1, ⟨0, 0⟩⟩, ⟨⟨4, 2⟩, ⟨0, 0⟩, 1, ⟨0, 0⟩⟩] =
        ((⟨⟨0, 0⟩, ⟨0, 0⟩, 1, ⟨0, 0⟩⟩ : Body).position +
            (⟨⟨4, 2⟩, ⟨0, 0⟩, 1, ⟨0, 0⟩⟩ : Body).position) * ((1 : ℝ) / 2) :=
  compute_barycenter_spec [] _ _ rfl (by norm_num)

/-- Helper for C7: while paused the sequential sweep leaves every body of the
remaining suffix unchanged and appends it to the already-processed prefix. -/
theorem update_bodies_aux_paused (G dt : ℝ) (rng : ℕ → ℕ → ℝ × ℝ)
    (rest : List Body) : ∀ pre : List Body,
    update_bodies_aux G true dt rng pre rest = some (pre ++ rest) := by
  induction rest with
  | nil => intro pre; simp [update_bodies_aux]
  | cons b rest ih =>
    intro pre
    simp only [update_bodies_aux, Body.update, if_pos]
    rw [ih (pre ++ [b])]
    simp

/-- C7: a paused step changes nothing — the whole collection (hence every
body's position, velocity and accumulated total_force) is exactly the same
after the step as before it, and no fault is raised. -/
theorem update_bodies_paused (G dt : ℝ) (rng : ℕ → ℕ → ℝ × ℝ)
    (bodies : List Body) :
    update_bodies G true dt rng bodies = some bodies := by
  unfold update_bodies
  rw [update_bodies_aux_paused]
  simp

/-- C8: an unpaused update of a body of mass zero hits the unguarded
division `total_force / mass` and raises a runtime arithmetic fault
(Python's ZeroDivisionError, modelled by `none`). -/
theorem update_zero_mass_fault (G dt : ℝ) (i : ℕ) (bodies : List Body)
    (self : Body) (draws : ℕ → ℝ × ℝ) (h : self.mass = 0) :
    Body.update G false dt i bodies self draws = none := by
  simp [Body.update, h]

/-- C8 witness: the fault at a concrete zero-mass body. -/
theorem update_zero_mass_fault_witness :
    Body.update 1 false 1 0 [⟨⟨0, 0⟩, ⟨0, 0⟩, 0, ⟨0, 0⟩⟩]
        ⟨⟨0, 0⟩, ⟨0, 0⟩, 0, ⟨0, 0⟩⟩ (fun _ => (0, 0)) = none :=
  update_zero_mass_fault 1 1 0 _ _ _ rfl

/-- C10: in a world with exactly one body of nonzero mass, an unpaused step
accumulates no force (the pairwise loop skips the body itself), so the body
keeps its velocity, its accumulated total_force is the zero vector, and its
position advances by velocity*dt. -/
theorem update_bodies_singleton (G dt : ℝ) (rng : ℕ → ℕ → ℝ × ℝ)
    (b : Body) (h : b.mass ≠ 0) :
    update_bodies G false dt rng [b] =
      some [{ b with position := b.position + b.velocity * dt,
                     total_force := ⟨0, 0⟩ }] := by
  have htf : Body.total_force_on G 0 b [b] (rng 0) = ⟨0, 0⟩ := by
    simp [Body.total_force_on, List.range_succ, List.range_zero]
  have hacc : (⟨0, 0⟩ : Vector2) / b.mass = ⟨0, 0⟩ := by
    apply Vector2.ext <;> simp
  have hupd : Body.update G false dt 0 [b] b (rng 0) =
      some { b with position := b.position + b.velocity * dt,
                    total_force := ⟨0, 0⟩ } := by
    simp only [Body.update, Bool.false_eq_true, if_false, htf]
    rw [if_neg h, hacc, rk4_eval]
    refine congrArg some ?_
    apply Body.ext
    · apply Vector2.ext <;> simp
    · apply Vector2.ext <;> simp
    · rfl
    · rfl
  unfold update_bodies
  simp only [update_bodies_aux, List.nil_append, List.length_nil]
  rw [hupd]

/-- C10 witness: the inertial singleton step at a concrete body. -/
theorem update_bodies_singleton_witness :
    update_bodies 2 false 1 (fun _ _ => (0, 0)) [⟨⟨1, 2⟩, ⟨3, 4⟩, 1, ⟨5, 6⟩⟩] =
      some [{ (⟨⟨1, 2⟩, ⟨3, 4⟩, 1, ⟨5, 6⟩⟩ : Body) with
                position := (⟨⟨1, 2⟩, ⟨3, 4⟩, 1, ⟨5, 6⟩⟩ : Body).position +
                  (⟨⟨1, 2⟩, ⟨3, 4⟩, 1, ⟨5, 6⟩⟩ : Body).velocity * (1 : ℝ),
                total_force := ⟨0, 0⟩ }] :=
  update_bodies_singleton 2 1 (fun _ _ => (0, 0)) _ (by norm_num)

/-- Coordinate form of the non-coincident branch of `calculate_force`, for
evaluation at concrete bodies; `m` is the (pre-computed) magnitude of the
position difference. -/
theorem calculate_force_eval (G m : ℝ) (self other : Body) (draw : ℝ × ℝ)
    (hm : (other.position - self.position).magnitude = m) (hm0 : m ≠ 0) :
    Body.calculate_force G self other draw =
      ⟨(other.position.x - self.position.x) / m *
          (G * self.mass * other.mass /
            ((other.position.x - self.position.x) ^ 2 +
              (other.position.y - self.position.y) ^ 2)),
        (other.position.y - self.position.y) / m *
          (G * self.mass * other.mass /
            ((other.position.x - self.position.x) ^ 2 +
              (other.position.y - self.position.y) ^ 2))⟩ := by
  simp only [Body.calculate_force]
  rw [if_pos (hm ▸ hm0)]
  apply Vector2.ext <;>
    simp [Vector2.normalize, Vector2.sqr_magnitude, hm]

/-- Coordinate form of an unpaused `Body.update` on a body of nonzero mass
whose accumulated force is `tf`, for evaluation at concrete bodies. -/
theorem body_update_eval (G dt : ℝ) (i : ℕ) (bodies : List Body)
    (self : Body) (draws : ℕ → ℝ × ℝ) (tf : Vector2)
    (htf : Body.total_force_on G i self bodies draws = tf)
    (h : self.mass ≠ 0) :
    Body.update G false dt i bodies self draws =
      some { self with
        position :=
          ⟨self.position.x + self.velocity.x * dt + tf.x / self.mass * dt ^ 2 / 2,
           self.position.y + self.velocity.y * dt + tf.y / self.mass * dt ^ 2 / 2⟩,
        velocity :=
          ⟨self.velocity.x + tf.x / self.mass * dt,
           self.velocity.y + tf.y / self.mass * dt⟩,
        total_force := tf } := by
  simp only [Body.update, Bool.false_eq_true, if_false, htf]
  rw [if_neg h, rk4_eval]
  rfl

/-- Force accumulation over a two-body list for the body at index 0: only
the body at index 1 contributes. -/
theorem total_force_on_two_i0 (G : ℝ) (self c0 c1 : Body)
    (draws : ℕ → ℝ × ℝ) :
    Body.total_force_on G 0 self [c0, c1] draws =
      Body.calculate_force G self c1 (draws 1) := by
  simp [Body.total_force_on, List.range_succ, List.range_zero]
  apply Vector2.ext <;> simp

/-- Force accumulation over a two-body list for the body at index 1: only
the body at index 0 contributes. -/
theorem total_force_on_two_i1 (G : ℝ) (self c0 c1 : Body)
    (draws : ℕ → ℝ × ℝ) :
    Body.total_force_on G 1 self [c0, c1] draws =
      Body.calculate_force G self c0 (draws 0) := by
  simp [Body.total_force_on, List.range_succ, List.range_zero]
  apply Vector2.ext <;> simp

/-- C2 amended: the per-frame sweep updates the list in place, so a later
body's force accumulation reads the already-updated positions of
earlier-indexed bodies; the sweep agrees with the snapshot-based step for
collections of fewer than two bodies (and in general differs otherwise). -/
theorem update_bodies_eq_snapshot_of_small (G : ℝ) (paused : Bool) (dt : ℝ)
    (rng : ℕ → ℕ → ℝ × ℝ) (bodies : List Body) (h : bodies.length ≤ 1) :
    update_bodies G paused dt rng bodies =
      step_snapshot G paused dt rng bodies := by
  cases bodies with
  | nil =>
    simp only [update_bodies, update_bodies_aux, step_snapshot,
      List.length_nil, List.range_zero]
    rfl
  | cons b rest =>
    cases rest with
    | cons c rest2 => simp at h
    | nil =>
      simp only [update_bodies, update_bodies_aux, step_snapshot,
        List.length_cons, List.length_nil, List.nil_append, List.range_succ,
        List.range_zero, List.mapM_cons, List.mapM_nil, List.getD_cons_zero]
      cases hb : Body.update G paused dt 0 [b] b (rng 0) with
      | none => simp [hb]
      | some b' => simp [hb, update_bodies_aux]

/-- C2 amended witness: sweep and snapshot agree on a concrete singleton
collection. -/
theorem update_bodies_eq_snapshot_of_small_witness :
    update_bodies 1 false 1 (fun _ _ => ((0 : ℝ), (0 : ℝ)))
        [⟨⟨0, 0⟩, ⟨1, 0⟩, 1, ⟨0, 0⟩⟩] =
      step_snapshot 1 false 1 (fun _ _ => ((0 : ℝ), (0 : ℝ)))
        [⟨⟨0, 0⟩, ⟨1, 0⟩, 1, ⟨0, 0⟩⟩] :=
  update_bodies_eq_snapshot_of_small 1 false 1 _ _ (by simp)

/-- C2 counterexample: two bodies of mass 1 at (0,0) and (1,0), G = 1,
dt = 1, unpaused.  The sequential in-place sweep moves the first body to
(1/2, 0) before the second body's force accumulation reads it, so the second
body feels a force of magnitude 4 (distance 1/2) instead of 1 (distance 1)
and ends at (-1, 0); the snapshot-based step leaves it at (1/2, 0).  Hence
the per-frame update is not the snapshot-based step. -/
theorem update_bodies_ne_step_snapshot :
    update_bodies 1 false 1 (fun _ _ => ((0 : ℝ), (0 : ℝ)))
        [⟨⟨0, 0⟩, ⟨0, 0⟩, 1, ⟨0, 0⟩⟩, ⟨⟨1, 0⟩, ⟨0, 0⟩, 1, ⟨0, 0⟩⟩] ≠
      step_snapshot 1 false 1 (fun _ _ => ((0 : ℝ), (0 : ℝ)))
        [⟨⟨0, 0⟩, ⟨0, 0⟩, 1, ⟨0, 0⟩⟩, ⟨⟨1, 0⟩, ⟨0, 0⟩, 1, ⟨0, 0⟩⟩] := by
  have hm1 : ((⟨1, 0⟩ : Vector2) - ⟨0, 0⟩).magnitude = 1 := by
    have h : ((⟨1, 0⟩ : Vector2) - ⟨0, 0⟩).x ^ 2 +
        ((⟨1, 0⟩ : Vector2) - ⟨0, 0⟩).y ^ 2 = 1 := by
      simp only [Vector2.sub_x, Vector2.sub_y]
      norm_num
    unfold Vector2.magnitude
    rw [h, Real.sqrt_one]
  have hF1 : Body.calculate_force 1 ⟨⟨0, 0⟩, ⟨0, 0⟩, 1, ⟨0, 0⟩⟩
      ⟨⟨1, 0⟩, ⟨0, 0⟩, 1, ⟨0, 0⟩⟩ ((0 : ℝ), (0 : ℝ)) = ⟨1, 0⟩ := by
    rw [calculate_force_eval 1 1 ⟨⟨0, 0⟩, ⟨0, 0⟩, 1, ⟨0, 0⟩⟩
      ⟨⟨1, 0⟩, ⟨0, 0⟩, 1, ⟨0, 0⟩⟩ ((0 : ℝ), (0 : ℝ)) hm1 one_ne_zero]
    apply Vector2.ext <;> norm_num
  have hT1 : Body.total_force_on 1 0 ⟨⟨0, 0⟩, ⟨0, 0⟩, 1, ⟨0, 0⟩⟩
      [⟨⟨0, 0⟩, ⟨0, 0⟩, 1, ⟨0, 0⟩⟩, ⟨⟨1, 0⟩, ⟨0, 0⟩, 1, ⟨0, 0⟩⟩]
      (fun _ => ((0 : ℝ), (0 : ℝ))) = ⟨1, 0⟩ := by
    rw [total_force_on_two_i0]
    exact hF1
  have hU1 : Body.update 1 false 1 0
      [⟨⟨0, 0⟩, ⟨0, 0⟩, 1, ⟨0, 0⟩⟩, ⟨⟨1, 0⟩, ⟨0, 0⟩, 1, ⟨0, 0⟩⟩]
      ⟨⟨0, 0⟩, ⟨0, 0⟩, 1, ⟨0, 0⟩⟩ (fun _ => ((0 : ℝ), (0 : ℝ))) =
      some ⟨⟨1 / 2, 0⟩, ⟨1, 0⟩, 1, ⟨1, 0⟩⟩ := by
    rw [body_update_eval 1 1 0
      [⟨⟨0, 0⟩, ⟨0, 0⟩, 1, ⟨0, 0⟩⟩, ⟨⟨1, 0⟩, ⟨0, 0⟩, 1, ⟨0, 0⟩⟩]
      ⟨⟨0, 0⟩, ⟨0, 0⟩, 1, ⟨0, 0⟩⟩ (fun _ => ((0 : ℝ), (0 : ℝ))) ⟨1, 0⟩
      hT1 one_ne_zero]
    refine congrArg some ?_
    apply Body.ext <;> first
      | rfl
      | (apply Vector2.ext <;> norm_num)
  have hm2 : ((⟨1 / 2, 0⟩ : Vector2) - ⟨1, 0⟩).magnitude = 1 / 2 := by
    have h : ((⟨1 / 2, 0⟩ : Vector2) - ⟨1, 0⟩).x ^ 2 +
        ((⟨1 / 2, 0⟩ : Vector2) - ⟨1, 0⟩).y ^ 2 = (1 / 2) ^ 2 := by
      simp only [Vector2.sub_x, Vector2.sub_y]
      norm_num
    unfold Vector2.magnitude
    rw [h]
    exact Real.sqrt_sq (by norm_num)
  have hF2 : Body.calculate_force 1 ⟨⟨1, 0⟩, ⟨0, 0⟩, 1, ⟨0, 0⟩⟩
      ⟨⟨1 / 2, 0⟩, ⟨1, 0⟩, 1, ⟨1, 0⟩⟩ ((0 : ℝ), (0 : ℝ)) = ⟨-4, 0⟩ := by
    rw [calculate_force_eval 1 (1 / 2) ⟨⟨1, 0⟩, ⟨0, 0⟩, 1, ⟨0, 0⟩⟩
      ⟨⟨1 / 2, 0⟩, ⟨1, 0⟩, 1, ⟨1, 0⟩⟩ ((0 : ℝ), (0 : ℝ)) hm2 (by norm_num)]
    apply Vector2.ext <;> norm_num
  have hT2 : Body.total_force_on 1 1 ⟨⟨1, 0⟩, ⟨0, 0⟩, 1, ⟨0, 0⟩⟩
      [⟨⟨1 / 2, 0⟩, ⟨1, 0⟩, 1, ⟨1, 0⟩⟩, ⟨⟨1, 0⟩, ⟨0, 0⟩, 1, ⟨0, 0⟩⟩]
      (fun _ => ((0 : ℝ), (0 : ℝ))) = ⟨-4, 0⟩ := by
    rw [total_force_on_two_i1]
    exact hF2
  have hU2 : Body.update 1 false 1 1
      [⟨⟨1 / 2, 0⟩, ⟨1, 0⟩, 1, ⟨1, 0⟩⟩, ⟨⟨1, 0⟩, ⟨0, 0⟩, 1, ⟨0, 0⟩⟩]
      ⟨⟨1, 0⟩, ⟨0, 0⟩, 1, ⟨0, 0⟩⟩ (fun _ => ((0 : ℝ), (0 : ℝ))) =
      some ⟨⟨-1, 0⟩, ⟨-4, 0⟩, 1, ⟨-4, 0⟩⟩ := by
    rw [body_update_eval 1 1 1
      [⟨⟨1 / 2, 0⟩, ⟨1, 0⟩, 1, ⟨1, 0⟩⟩, ⟨⟨1, 0⟩, ⟨0, 0⟩, 1, ⟨0, 0⟩⟩]
      ⟨⟨1, 0⟩, ⟨0, 0⟩, 1, ⟨0, 0⟩⟩ (fun _ => ((0 : ℝ), (0 : ℝ))) ⟨-4, 0⟩
      hT2 one_ne_zero]
    refine congrArg some ?_
    apply Body.ext <;> first
      | rfl
      | (apply Vector2.ext <;> norm_num)
  have hm3 : ((⟨0, 0⟩ : Vector2) - ⟨1, 0⟩).magnitude = 1 := by
    have h : ((⟨0, 0⟩ : Vector2) - ⟨1, 0⟩).x ^ 2 +
        ((⟨0, 0⟩ : Vector2) - ⟨1, 0⟩).y ^ 2 = 1 := by
      simp only [Vector2.sub_x, Vector2.sub_y]
      norm_num
    unfold Vector2.magnitude
    rw [h, Real.sqrt_one]
  have hF3 : Body.calculate_force 1 ⟨⟨1, 0⟩, ⟨0, 0⟩, 1, ⟨0, 0⟩⟩
      ⟨⟨0, 0⟩, ⟨0, 0⟩, 1, ⟨0, 0⟩⟩ ((0 : ℝ), (0 : ℝ)) = ⟨-1, 0⟩ := by
    rw [calculate_force_eval 1 1 ⟨⟨1, 0⟩, ⟨0, 0⟩, 1, ⟨0, 0⟩⟩
      ⟨⟨0, 0⟩, ⟨0, 0⟩, 1, ⟨0, 0⟩⟩ ((0 : ℝ), (0 : ℝ)) hm3 one_ne_zero]
    apply Vector2.ext <;> norm_num
  have hT3 : Body.total_force_on 1 1 ⟨⟨1, 0⟩, ⟨0, 0⟩, 1, ⟨0, 0⟩⟩
      [⟨⟨0, 0⟩, ⟨0, 0⟩, 1, ⟨0, 0⟩⟩, ⟨⟨1, 0⟩, ⟨0, 0⟩, 1, ⟨0, 0⟩⟩]
      (fun _ => ((0 : ℝ), (0 : ℝ))) = ⟨-1, 0⟩ := by
    rw [total_force_on_two_i1]
    exact hF3
  have hU3 : Body.update 1 false 1 1
      [⟨⟨0, 0⟩, ⟨0, 0⟩, 1, ⟨0, 0⟩⟩, ⟨⟨1, 0⟩, ⟨0, 0⟩, 1, ⟨0, 0⟩⟩]
      ⟨⟨1, 0⟩, ⟨0, 0⟩, 1, ⟨0, 0⟩⟩ (fun _ => ((0 : ℝ), (0 : ℝ))) =
      some ⟨⟨1 / 2, 0⟩, ⟨-1, 0⟩, 1, ⟨-1, 0⟩⟩ := by
    rw [body_update_eval 1 1 1
      [⟨⟨0, 0⟩, ⟨0, 0⟩, 1, ⟨0, 0⟩⟩, ⟨⟨1, 0⟩, ⟨0, 0⟩, 1, ⟨0, 0⟩⟩]
      ⟨⟨1, 0⟩, ⟨0, 0⟩, 1, ⟨0, 0⟩⟩ (fun _ => ((0 : ℝ), (0 : ℝ))) ⟨-1, 0⟩
      hT3 one_ne_zero]
    refine congrArg some ?_
    apply Body.ext <;> first
      | rfl
      | (apply Vector2.ext <;> norm_num)
  have hseq : update_bodies 1 false 1 (fun _ _ => ((0 : ℝ), (0 : ℝ)))
      [⟨⟨0, 0⟩, ⟨0, 0⟩, 1, ⟨0, 0⟩⟩, ⟨⟨1, 0⟩, ⟨0, 0⟩, 1, ⟨0, 0⟩⟩] =
      some [⟨⟨1 / 2, 0⟩, ⟨1, 0⟩, 1, ⟨1, 0⟩⟩, ⟨⟨-1, 0⟩, ⟨-4, 0⟩, 1, ⟨-4, 0⟩⟩] := by
    unfold update_bodies
    simp only [update_bodies_aux, List.length_nil, List.length_cons,
      List.nil_append, List.cons_append, List.append_nil, List.singleton_append,
      Nat.zero_add, zero_add, hU1, hU2]
  have hsnap : step_snapshot 1 false 1 (fun _ _ => ((0 : ℝ), (0 : ℝ)))
      [⟨⟨0, 0⟩, ⟨0, 0⟩, 1, ⟨0, 0⟩⟩, ⟨⟨1, 0⟩, ⟨0, 0⟩, 1, ⟨0, 0⟩⟩] =
      some [⟨⟨1 / 2, 0⟩, ⟨1, 0⟩, 1, ⟨1, 0⟩⟩, ⟨⟨1 / 2, 0⟩, ⟨-1, 0⟩, 1, ⟨-1, 0⟩⟩] := by
    simp only [step_snapshot, List.length_cons, List.length_nil, Nat.zero_add,
      zero_add, List.range_succ, List.range_zero, List.nil_append,
      List.singleton_append, List.mapM_cons, List.mapM_nil,
      List.getD_cons_zero, List.getD_cons_succ, hU1, hU3]
    rfl
  rw [hseq, hsnap]
  intro h
  simp only [Option.some.injEq, List.cons.injEq, Body.mk.injEq,
    Vector2.mk.injEq] at h
  norm_num at h

end GravSim
